import Mathlib

/-!
Shallow embedding of the realtime-chat WebSocket server (server.js).

The server keeps two pieces of global state:
  * `connectedClients` — a `Set` of live WebSocket handles;
  * `clientUsernames`  — a `Map` from WebSocket handle to the username value
    taken from the client's first valid message.

WebSocket handles are modelled as natural numbers (reference equality on the
JS objects becomes equality of the numbers).  JSON field values carried by
inbound messages are modelled by `JVal`, so that JavaScript truthiness checks
(`!message.username`, `if (username)`) and the strict comparison
`message.isTyping === undefined` can be mirrored exactly.  `Date.now()`
timestamps are producer-assigned and never inspected by the server, so
envelopes are modelled without them.

The transport is modelled by two environment functions given per event:
`openState c` (does `c.readyState === WebSocket.OPEN` hold) and `fails c`
(does `c.send` throw).  The handlers return the successor state together with
the list of I/O actions they perform, in order.
-/

namespace RealtimeChat

/-- A JSON value as produced by `JSON.parse` for a single message field.
`jother` stands for arrays and objects (always truthy, never inspected
further by the server). -/
inductive JVal where
  | jnull
  | jbool (b : Bool)
  | jnum (n : Int)
  | jstr (s : String)
  | jother
  deriving DecidableEq, Repr

/-- JavaScript truthiness of a field value. -/
def JVal.truthy : JVal → Bool
  | .jnull => false
  | .jbool b => b
  | .jnum n => n != 0
  | .jstr s => s != ""
  | .jother => true

/-- JavaScript string conversion, as used by template literals such as
`` `${message.username} joined the chat` ``. -/
def JVal.jsToString : JVal → String
  | .jnull => "null"
  | .jbool true => "true"
  | .jbool false => "false"
  | .jnum n => toString n
  | .jstr s => s
  | .jother => "[object Object]"

/-- Truthiness of a possibly-missing field (`undefined` is falsy). -/
def truthyOpt : Option JVal → Bool
  | none => false
  | some v => v.truthy

/-- A parsed inbound message object.  A field that is absent from the JSON
object is `none` (JavaScript `undefined`). -/
structure Msg where
  type : Option JVal
  username : Option JVal
  text : Option JVal
  isTyping : Option JVal
  deriving DecidableEq, Repr

/-- A raw inbound frame: either it parses (`JSON.parse` succeeds) or not. -/
inductive Frame where
  | malformed
  | parsed (m : Msg)
  deriving DecidableEq, Repr

/-- An outbound envelope, without the producer-assigned timestamp.
`relayMsg` is the original inbound message object broadcast verbatim
(chat messages and typing indicators). -/
inductive Envelope where
  | system (text : String)
  | onlineCountMsg (count : Nat)
  | relayMsg (m : Msg)
  | errorMsg (text : String)
  deriving DecidableEq, Repr

/-- One attempted `client.send(...)`: the target handle, the envelope, and
whether the send succeeded (`ok = false` means `send` threw and the error
was caught and logged). -/
structure SendAttempt where
  target : Nat
  env : Envelope
  ok : Bool
  deriving DecidableEq, Repr

/-- One I/O action performed by a handler, in program order. -/
inductive Action where
  | unicast (a : SendAttempt)
  | broadcastAll (e : Envelope) (sends : List SendAttempt)
  | broadcastExceptOne (e : Envelope) (excluded : Nat) (sends : List SendAttempt)
  deriving DecidableEq, Repr

/-- The server's global mutable state: `connectedClients` (a `Set`, kept in
insertion order) and `clientUsernames` (a `Map`, kept as an association
list in insertion order). -/
structure ServerState where
  connectedClients : List Nat
  clientUsernames : List (Nat × JVal)
  deriving DecidableEq, Repr

/-- State at server start: no clients, no usernames. -/
def initState : ServerState := ServerState.mk [] []

/-- `Map.prototype.has`. -/
def mapHas (l : List (Nat × JVal)) (k : Nat) : Bool := (l.lookup k).isSome

/-- `Map.prototype.set`: update in place if the key exists, append otherwise. -/
def mapSet (l : List (Nat × JVal)) (k : Nat) (v : JVal) : List (Nat × JVal) :=
  if mapHas l k then l.map (fun p => if p.1 == k then (k, v) else p) else l ++ [(k, v)]

/-- `Map.prototype.delete`. -/
def mapDelete (l : List (Nat × JVal)) (k : Nat) : List (Nat × JVal) :=
  l.filter (fun p => p.1 != k)

/-- `Set.prototype.add`. -/
def setAdd (l : List Nat) (x : Nat) : List Nat := if x ∈ l then l else l ++ [x]

/-- `getOnlineCount()`: the size of the `clientUsernames` map. -/
def getOnlineCount (st : ServerState) : Nat := st.clientUsernames.length

/-- The per-client send attempts made by `broadcast`: every connected client
whose `readyState` is `OPEN` is attempted; a throwing `send` is caught and
does not stop the loop. -/
def sendsToAll (clients : List Nat) (openState fails : Nat → Bool) (e : Envelope) :
    List SendAttempt :=
  (clients.filter (fun c => openState c)).map (fun c => SendAttempt.mk c e (!fails c))

/-- `broadcast(messageObject)`. -/
def broadcast (clients : List Nat) (openState fails : Nat → Bool) (e : Envelope) : Action :=
  Action.broadcastAll e (sendsToAll clients openState fails e)

/-- The per-client send attempts made by `broadcastExcept`: the excluded
client is skipped by reference equality, then the open-state check and the
try/catch are as in `broadcast`. -/
def sendsToExcept (clients : List Nat) (openState fails : Nat → Bool) (e : Envelope)
    (ex : Nat) : List SendAttempt :=
  (clients.filter (fun c => c != ex && openState c)).map (fun c => SendAttempt.mk c e (!fails c))

/-- `broadcastExcept(messageObject, excludeClient)`. -/
def broadcastExcept (clients : List Nat) (openState fails : Nat → Bool) (e : Envelope)
    (ex : Nat) : Action :=
  Action.broadcastExceptOne e ex (sendsToExcept clients openState fails e ex)

/-- `broadcastOnlineCount()`: broadcast an `online-count` envelope holding
`getOnlineCount()` of the current state. -/
def broadcastOnlineCountAct (st : ServerState) (openState fails : Nat → Bool) : Action :=
  broadcast st.connectedClients openState fails (Envelope.onlineCountMsg (getOnlineCount st))

/-- The join block shared by the chat-message and typing branches: store the
username in `clientUsernames`, broadcast the "... joined the chat" system
message, then broadcast the updated online count. -/
def bindAndAnnounce (st : ServerState) (ws : Nat) (uname : Option JVal)
    (openState fails : Nat → Bool) : ServerState × List Action :=
  let st1 := ServerState.mk st.connectedClients
    (mapSet st.clientUsernames ws (uname.getD JVal.jnull))
  (st1,
    [broadcast st1.connectedClients openState fails
        (Envelope.system ((uname.getD JVal.jnull).jsToString ++ " joined the chat")),
      broadcastOnlineCountAct st1 openState fails])

/-- The `ws.on('message')` handler. -/
def handleMessage (st : ServerState) (ws : Nat) (frame : Frame)
    (openState fails : Nat → Bool) : ServerState × List Action :=
  match frame with
  | Frame.malformed =>
      (st, [Action.unicast
        (SendAttempt.mk ws (Envelope.errorMsg "Failed to process message") (!fails ws))])
  | Frame.parsed m =>
      let isNewUser := !(mapHas st.clientUsernames ws)
      if m.type == some (JVal.jstr "chat-message") then
        if !(truthyOpt m.username) || !(truthyOpt m.text) then
          (st, [])
        else
          let p := if isNewUser && truthyOpt m.username then
              bindAndAnnounce st ws m.username openState fails
            else (st, ([] : List Action))
          (p.1, p.2 ++ [broadcast p.1.connectedClients openState fails (Envelope.relayMsg m)])
      else if m.type == some (JVal.jstr "typing") then
        if !(truthyOpt m.username) || m.isTyping == none then
          (st, [])
        else
          let p := if isNewUser && truthyOpt m.username then
              bindAndAnnounce st ws m.username openState fails
            else (st, ([] : List Action))
          (p.1, p.2 ++ [broadcastExcept p.1.connectedClients openState fails
            (Envelope.relayMsg m) ws])
      else
        (st, [])

/-- The `ws.on('close')` handler: remove the client from both collections,
then, if a truthy username was bound, broadcast the leave message and the
updated count. -/
def handleClose (st : ServerState) (ws : Nat) (openState fails : Nat → Bool) :
    ServerState × List Action :=
  let username := st.clientUsernames.lookup ws
  let st1 := ServerState.mk (st.connectedClients.filter (fun c => c != ws))
    (mapDelete st.clientUsernames ws)
  match username with
  | some u =>
      if u.truthy then
        (st1,
          [broadcast st1.connectedClients openState fails
              (Envelope.system (u.jsToString ++ " left the chat")),
            broadcastOnlineCountAct st1 openState fails])
      else (st1, [])
  | none => (st1, [])

/-- The `ws.on('error')` handler: same removal and leave notification as the
close handler. -/
def handleError (st : ServerState) (ws : Nat) (openState fails : Nat → Bool) :
    ServerState × List Action :=
  let username := st.clientUsernames.lookup ws
  let st1 := ServerState.mk (st.connectedClients.filter (fun c => c != ws))
    (mapDelete st.clientUsernames ws)
  match username with
  | some u =>
      if u.truthy then
        (st1,
          [broadcast st1.connectedClients openState fails
              (Envelope.system (u.jsToString ++ " left the chat")),
            broadcastOnlineCountAct st1 openState fails])
      else (st1, [])
  | none => (st1, [])

/-- The `wss.on('connection')` handler: add the new client to the set, then
unicast the welcome message and the current online count to it. -/
def handleConnection (st : ServerState) (ws : Nat) (fails : Nat → Bool) :
    ServerState × List Action :=
  let st1 := ServerState.mk (setAdd st.connectedClients ws) st.clientUsernames
  (st1,
    [Action.unicast (SendAttempt.mk ws
        (Envelope.system "Welcome to the chat! You are now connected.") (!fails ws)),
      Action.unicast (SendAttempt.mk ws
        (Envelope.onlineCountMsg (getOnlineCount st1)) (!fails ws))])

/-- An externally-triggered server event, carrying the transport environment
in effect while the handler runs. -/
inductive Event where
  | connect (ws : Nat) (fails : Nat → Bool)
  | message (ws : Nat) (frame : Frame) (openState fails : Nat → Bool)
  | closeEv (ws : Nat) (openState fails : Nat → Bool)
  | errorEv (ws : Nat) (openState fails : Nat → Bool)

/-- Which events the transport can deliver in a given state: a `connection`
event always carries a fresh socket object, and a `message` event is only
emitted by a socket whose `connection` handler registered it and whose
`close` event has not yet fired.  Close and error events are unrestricted
(the `ws` library may emit `close` after `error`; the handlers tolerate an
already-removed socket). -/
def eventValid (st : ServerState) : Event → Prop
  | Event.connect ws _ => ws ∉ st.connectedClients
  | Event.message ws _ _ _ => ws ∈ st.connectedClients
  | Event.closeEv _ _ _ => True
  | Event.errorEv _ _ _ => True

/-- Dispatch one event to its handler. -/
def applyEvent (st : ServerState) : Event → ServerState × List Action
  | Event.connect ws fails => handleConnection st ws fails
  | Event.message ws frame o f => handleMessage st ws frame o f
  | Event.closeEv ws o f => handleClose st ws o f
  | Event.errorEv ws o f => handleError st ws o f

/-- Server states reachable from startup by valid event sequences. -/
inductive Reachable : ServerState → Prop where
  | init : Reachable initState
  | step (st : ServerState) (e : Event) : Reachable st → eventValid st e →
      Reachable (applyEvent st e).1

/-- The length of a string after trimming leading and trailing whitespace,
stated character-wise (the spec's "minimum length 2 after trimming"). -/
def trimmedLen (s : String) : Nat :=
  (((s.data.dropWhile Char.isWhitespace).reverse.dropWhile Char.isWhitespace).reverse).length

/-- Invariant over the server state: the client set has no duplicates, the
username map has no duplicate keys, every key of the username map is a
registered client, and every stored username value is truthy. -/
def Inv (st : ServerState) : Prop :=
  st.connectedClients.Nodup ∧
  (st.clientUsernames.map Prod.fst).Nodup ∧
  ∀ p ∈ st.clientUsernames, p.1 ∈ st.connectedClients ∧ p.2.truthy = true

/-- The acceptance condition of the chat-message branch: correct type tag,
truthy `username`, truthy `text`. -/
def validChat (m : Msg) : Prop :=
  m.type = some (JVal.jstr "chat-message") ∧
    truthyOpt m.username = true ∧ truthyOpt m.text = true

/-- The acceptance condition of the typing branch: correct type tag, truthy
`username`, and an `isTyping` field that is present (not `undefined`). -/
def validTyping (m : Msg) : Prop :=
  m.type = some (JVal.jstr "typing") ∧
    truthyOpt m.username = true ∧ m.isTyping ≠ none

/-- A structurally valid inbound message: one the dispatcher accepts. -/
def validMsg (m : Msg) : Prop := validChat m ∨ validTyping m

/-- Is this action a broadcast of a `system` envelope (a join/leave
announcement)? -/
def isSystemBroadcast : Action → Bool
  | Action.broadcastAll (Envelope.system _) _ => true
  | _ => false

/-- Is this action a broadcast of an `online-count` envelope? -/
def isCountBroadcast : Action → Bool
  | Action.broadcastAll (Envelope.onlineCountMsg _) _ => true
  | _ => false

/-! ### Concrete sample values used to exercise the theorems -/

/-- A well-formed chat message from "Alice". -/
def chatAlice : Msg :=
  Msg.mk (some (JVal.jstr "chat-message")) (some (JVal.jstr "Alice"))
    (some (JVal.jstr "hi")) none

/-- A well-formed chat message from "Bob". -/
def chatBob : Msg :=
  Msg.mk (some (JVal.jstr "chat-message")) (some (JVal.jstr "Bob"))
    (some (JVal.jstr "yo")) none

/-- A well-formed typing message from "Alice". -/
def typingAlice : Msg :=
  Msg.mk (some (JVal.jstr "typing")) (some (JVal.jstr "Alice")) none
    (some (JVal.jbool true))

/-- A typing message whose `isTyping` field is present but is a string, not
a boolean. -/
def typingNonBool : Msg :=
  Msg.mk (some (JVal.jstr "typing")) (some (JVal.jstr "Alice")) none
    (some (JVal.jstr "yes"))

/-- A chat message whose username is the single character "a". -/
def chatShort : Msg :=
  Msg.mk (some (JVal.jstr "chat-message")) (some (JVal.jstr "a"))
    (some (JVal.jstr "hi")) none

/-- A chat message with an empty username. -/
def chatEmptyUser : Msg :=
  Msg.mk (some (JVal.jstr "chat-message")) (some (JVal.jstr ""))
    (some (JVal.jstr "hi")) none

/-- A typing message with the `isTyping` field missing. -/
def typingNoFlag : Msg :=
  Msg.mk (some (JVal.jstr "typing")) (some (JVal.jstr "Alice")) none none

/-- All transports open. -/
def allOpen : Nat → Bool := fun _ => true

/-- No send ever throws. -/
def noFail : Nat → Bool := fun _ => false

/-- A sample state: client 0 connected and bound to "Alice". -/
def stAlice : ServerState := ServerState.mk [0] [(0, JVal.jstr "Alice")]

/-- A sample state: client 0 connected and bound to the one-character
username "a". -/
def stShort : ServerState := ServerState.mk [0] [(0, JVal.jstr "a")]

/-! ### Association-list facts about `Map` as modelled by `List.lookup` -/

lemma lookup_isSome_iff_mem_keys (l : List (Nat × JVal)) (k : Nat) :
    (l.lookup k).isSome = true ↔ k ∈ l.map Prod.fst := by
  induction l with
  | nil => simp [List.lookup]
  | cons p t ih =>
    obtain ⟨a, b⟩ := p
    simp only [List.lookup, List.map_cons, List.mem_cons]
    by_cases h : k = a
    · subst h; simp
    · have hb : (k == a) = false := beq_false_of_ne h
      simp [hb, ih, h]

lemma lookup_eq_some_mem {l : List (Nat × JVal)} {k : Nat} {v : JVal}
    (hv : l.lookup k = some v) : (k, v) ∈ l := by
  induction l with
  | nil => simp [List.lookup] at hv
  | cons p t ih =>
    obtain ⟨a, b⟩ := p
    by_cases h : k = a
    · subst h
      simp [List.lookup] at hv
      simp [hv]
    · have hb : (k == a) = false := beq_false_of_ne h
      simp [List.lookup, hb] at hv
      exact List.mem_cons_of_mem _ (ih hv)

lemma mapHas_false_iff (l : List (Nat × JVal)) (k : Nat) :
    mapHas l k = false ↔ k ∉ l.map Prod.fst := by
  rw [← lookup_isSome_iff_mem_keys]
  unfold mapHas
  cases (l.lookup k).isSome <;> simp

lemma mapHas_mapSet_self (l : List (Nat × JVal)) (k : Nat) (v : JVal) :
    mapHas (mapSet l k v) k = true := by
  unfold mapHas
  rw [lookup_isSome_iff_mem_keys]
  unfold mapSet
  cases h : mapHas l k with
  | true =>
    simp only [if_true]
    have hk : k ∈ l.map Prod.fst := (lookup_isSome_iff_mem_keys l k).1 h
    obtain ⟨p, hp, hpk⟩ := List.mem_map.1 hk
    refine List.mem_map.2 ⟨(k, v), ?_, rfl⟩
    refine List.mem_map.2 ⟨p, hp, ?_⟩
    have hb : (p.1 == k) = true := by simp [hpk]
    simp [hb]
  | false => simp [h]

lemma mapHas_mapDelete_self (l : List (Nat × JVal)) (k : Nat) :
    mapHas (mapDelete l k) k = false := by
  rw [mapHas_false_iff]
  intro hk
  obtain ⟨p, hp, hpk⟩ := List.mem_map.1 hk
  have hpf : p ∈ l ∧ (p.1 != k) = true := by simpa [mapDelete] using hp
  rw [hpk] at hpf
  simp at hpf

lemma sendsToAll_targets (clients : List Nat) (o f : Nat → Bool) (e : Envelope) :
    (sendsToAll clients o f e).map SendAttempt.target = clients.filter (fun c => o c) := by
  simp only [sendsToAll, List.map_map]
  have hcomp : (SendAttempt.target ∘ fun c => SendAttempt.mk c e (!f c)) = id := rfl
  rw [hcomp, List.map_id]

lemma sendsToExcept_targets (clients : List Nat) (o f : Nat → Bool) (e : Envelope) (ex : Nat) :
    (sendsToExcept clients o f e ex).map SendAttempt.target =
      clients.filter (fun c => c != ex && o c) := by
  simp only [sendsToExcept, List.map_map]
  have hcomp : (SendAttempt.target ∘ fun c => SendAttempt.mk c e (!f c)) = id := rfl
  rw [hcomp, List.map_id]

/-! ### The registry invariant -/

lemma inv_init : Inv initState := by
  refine ⟨List.nodup_nil, List.nodup_nil, ?_⟩
  intro p hp
  simp [initState] at hp

/-- The message handler either leaves the state unchanged, or (when it binds
a new user) appends one truthy entry for a previously-unbound key to the
username map, leaving the client set unchanged. -/
lemma handleMessage_state (st : ServerState) (ws : Nat) (frame : Frame) (o f : Nat → Bool) :
    (handleMessage st ws frame o f).1 = st ∨
    (mapHas st.clientUsernames ws = false ∧ ∃ u : JVal, u.truthy = true ∧
      (handleMessage st ws frame o f).1 =
        ServerState.mk st.connectedClients (st.clientUsernames ++ [(ws, u)])) := by
  cases frame with
  | malformed => left; rfl
  | parsed m =>
    simp only [handleMessage]
    split
    · split
      · left; rfl
      · split
        · rename_i hbind
          rw [Bool.and_eq_true] at hbind
          have hnew : mapHas st.clientUsernames ws = false := by simpa using hbind.1
          have htr : truthyOpt m.username = true := hbind.2
          right
          refine ⟨hnew, m.username.getD JVal.jnull, ?_, ?_⟩
          · cases hm : m.username with
            | none => rw [hm] at htr; simp [truthyOpt] at htr
            | some u => rw [hm] at htr; simpa [truthyOpt] using htr
          · simp [bindAndAnnounce, mapSet, hnew]
        · left; rfl
    · split
      · split
        · left; rfl
        · split
          · rename_i hbind
            rw [Bool.and_eq_true] at hbind
            have hnew : mapHas st.clientUsernames ws = false := by simpa using hbind.1
            have htr : truthyOpt m.username = true := hbind.2
            right
            refine ⟨hnew, m.username.getD JVal.jnull, ?_, ?_⟩
            · cases hm : m.username with
              | none => rw [hm] at htr; simp [truthyOpt] at htr
              | some u => rw [hm] at htr; simpa [truthyOpt] using htr
            · simp [bindAndAnnounce, mapSet, hnew]
          · left; rfl
      · left; rfl

/-- The close handler removes the client from both collections. -/
lemma handleClose_state (st : ServerState) (ws : Nat) (o f : Nat → Bool) :
    (handleClose st ws o f).1 =
      ServerState.mk (st.connectedClients.filter (fun c => c != ws))
        (mapDelete st.clientUsernames ws) := by
  simp only [handleClose]
  split
  · split <;> rfl
  · rfl

/-- The error handler removes the client from both collections. -/
lemma handleError_state (st : ServerState) (ws : Nat) (o f : Nat → Bool) :
    (handleError st ws o f).1 =
      ServerState.mk (st.connectedClients.filter (fun c => c != ws))
        (mapDelete st.clientUsernames ws) := by
  simp only [handleError]
  split
  · split <;> rfl
  · rfl

lemma inv_remove (st : ServerState) (ws : Nat) (h : Inv st) :
    Inv (ServerState.mk (st.connectedClients.filter (fun c => c != ws))
      (mapDelete st.clientUsernames ws)) := by
  obtain ⟨hnc, hnk, hmem⟩ := h
  refine ⟨hnc.filter _, ?_, ?_⟩
  · have hsub : ((mapDelete st.clientUsernames ws).map Prod.fst).Sublist
        (st.clientUsernames.map Prod.fst) :=
      (List.filter_sublist _).map Prod.fst
    exact hnk.sublist hsub
  · intro p hp
    have hp' : p ∈ st.clientUsernames ∧ (p.1 != ws) = true := by
      simpa [mapDelete] using (List.mem_filter.1 hp)
    refine ⟨List.mem_filter.2 ⟨(hmem p hp'.1).1, hp'.2⟩, (hmem p hp'.1).2⟩

lemma inv_step (st : ServerState) (e : Event) (h : Inv st) (hv : eventValid st e) :
    Inv (applyEvent st e).1 := by
  obtain ⟨hnc, hnk, hmem⟩ := h
  cases e with
  | connect ws fails =>
    simp only [applyEvent, handleConnection]
    by_cases hin : ws ∈ st.connectedClients
    · exact ⟨by simpa [setAdd, hin] using hnc, hnk, fun p hp => ⟨by
        simpa [setAdd, hin] using (hmem p hp).1, (hmem p hp).2⟩⟩
    · refine ⟨?_, hnk, ?_⟩
      · simp only [setAdd, hin, if_false]
        simp [List.nodup_append, hnc, hin]
      · intro p hp
        refine ⟨?_, (hmem p hp).2⟩
        simp only [setAdd, hin, if_false]
        exact List.mem_append_left _ (hmem p hp).1
  | message ws frame o f =>
    simp only [applyEvent]
    rcases handleMessage_state st ws frame o f with heq | ⟨hnew, u, hu, heq⟩
    · rw [heq]; exact ⟨hnc, hnk, hmem⟩
    · rw [heq]
      have hwsnot : ws ∉ st.clientUsernames.map Prod.fst := (mapHas_false_iff _ _).1 hnew
      refine ⟨hnc, ?_, ?_⟩
      · simp [List.nodup_append, hnk, hwsnot]
      · intro p hp
        rcases List.mem_append.1 hp with hp1 | hp2
        · exact hmem p hp1
        · have : p = (ws, u) := by simpa using hp2
          subst this
          exact ⟨hv, hu⟩
  | closeEv ws o f =>
    simp only [applyEvent]
    rw [handleClose_state st ws o f]
    exact inv_remove st ws ⟨hnc, hnk, hmem⟩
  | errorEv ws o f =>
    simp only [applyEvent]
    rw [handleError_state st ws o f]
    exact inv_remove st ws ⟨hnc, hnk, hmem⟩

lemma reachable_inv {st : ServerState} (h : Reachable st) : Inv st := by
  induction h with
  | init => exact inv_init
  | step st e _ hv ih => exact inv_step st e ih hv

/-- The successor state computed by the message handler does not depend on
which sends fail: a caught `send` error never feeds back into the
Registry. -/
lemma handleMessage_fst_indep (st : ServerState) (ws : Nat) (frame : Frame)
    (o f g : Nat → Bool) :
    (handleMessage st ws frame o f).1 = (handleMessage st ws frame o g).1 := by
  cases frame with
  | malformed => rfl
  | parsed m =>
    simp only [handleMessage]
    cases h1 : (m.type == some (JVal.jstr "chat-message")) <;>
      cases h2 : (m.type == some (JVal.jstr "typing")) <;>
        cases h3 : (!(truthyOpt m.username) || !(truthyOpt m.text)) <;>
          cases h4 : (!(truthyOpt m.username) || m.isTyping == none) <;>
            cases h5 : (!(mapHas st.clientUsernames ws) && truthyOpt m.username) <;>
              simp [h1, h2, h3, h4, h5, bindAndAnnounce]

lemma stAlice_reachable : Reachable stAlice := by
  have h1 : Reachable initState := Reachable.init
  have h2 := Reachable.step initState (Event.connect 0 noFail) h1 (by simp [initState, eventValid])
  have e2 : (applyEvent initState (Event.connect 0 noFail)).1 = ServerState.mk [0] [] := by rfl
  rw [e2] at h2
  have h3 := Reachable.step (ServerState.mk [0] [])
    (Event.message 0 (Frame.parsed chatAlice) allOpen noFail) h2 (by simp [eventValid])
  have e3 : (applyEvent (ServerState.mk [0] [])
      (Event.message 0 (Frame.parsed chatAlice) allOpen noFail)).1 = stAlice := by rfl
  rw [e3] at h3
  exact h3

lemma stShort_reachable : Reachable stShort := by
  have h1 : Reachable initState := Reachable.init
  have h2 := Reachable.step initState (Event.connect 0 noFail) h1 (by simp [initState, eventValid])
  have e2 : (applyEvent initState (Event.connect 0 noFail)).1 = ServerState.mk [0] [] := by rfl
  rw [e2] at h2
  have h3 := Reachable.step (ServerState.mk [0] [])
    (Event.message 0 (Frame.parsed chatShort) allOpen noFail) h2 (by simp [eventValid])
  have e3 : (applyEvent (ServerState.mk [0] [])
      (Event.message 0 (Frame.parsed chatShort) allOpen noFail)).1 = stShort := by rfl
  rw [e3] at h3
  exact h3

/-! ### Claim theorems -/

/-- C1: in every reachable server state — produced by any sequence of
connection opens, inbound frames, closes and transport errors —
`getOnlineCount()` equals the number of currently-live sessions that have a
bound identity; sessions without a bound identity are never counted. -/
theorem onlineCount_eq_bound_live_sessions (st : ServerState) (h : Reachable st) :
    getOnlineCount st =
      (st.connectedClients.filter (fun c => mapHas st.clientUsernames c)).length := by
  obtain ⟨hnc, hnk, hmem⟩ := reachable_inv h
  have hkeys : ∀ c, mapHas st.clientUsernames c = true ↔ c ∈ st.clientUsernames.map Prod.fst :=
    fun c => lookup_isSome_iff_mem_keys _ c
  have hsub : ∀ a ∈ st.clientUsernames.map Prod.fst, a ∈ st.connectedClients := by
    intro a ha
    obtain ⟨p, hp, rfl⟩ := List.mem_map.1 ha
    exact (hmem p hp).1
  have hperm : (st.connectedClients.filter (fun c => mapHas st.clientUsernames c)).Perm
      (st.clientUsernames.map Prod.fst) := by
    refine (List.perm_ext_iff_of_nodup (hnc.filter _) hnk).2 ?_
    intro a
    rw [List.mem_filter]
    constructor
    · rintro ⟨_, hhas⟩
      exact (hkeys a).1 hhas
    · intro ha
      exact ⟨hsub a ha, (hkeys a).2 ha⟩
  calc getOnlineCount st = st.clientUsernames.length := rfl
    _ = (st.clientUsernames.map Prod.fst).length := (List.length_map _ _).symm
    _ = _ := hperm.length_eq.symm

/-- C1 witness: the invariant evaluated in the concrete reachable state
where client 0 is connected and bound. -/
theorem onlineCount_eq_bound_live_sessions_witness :
    getOnlineCount stAlice =
      (stAlice.connectedClients.filter (fun c => mapHas stAlice.clientUsernames c)).length :=
  onlineCount_eq_bound_live_sessions stAlice stAlice_reachable

/-- C2: the first structurally valid chat-message or typing message from a
session triggers exactly one join system broadcast followed by exactly one
online-count broadcast, in that order, regardless of message type, and binds
the session; a valid message from an already-bound session triggers no
system broadcast and no count broadcast. -/
theorem first_valid_message_announces_once (st : ServerState) (ws : Nat) (m : Msg)
    (o f : Nat → Bool) (hv : validMsg m) :
    (mapHas st.clientUsernames ws = false →
      ∃ jt n s1 s2 rest,
        (handleMessage st ws (Frame.parsed m) o f).2 =
          Action.broadcastAll (Envelope.system jt) s1 ::
            Action.broadcastAll (Envelope.onlineCountMsg n) s2 :: rest ∧
        rest.filter isSystemBroadcast = [] ∧
        rest.filter isCountBroadcast = [] ∧
        mapHas (handleMessage st ws (Frame.parsed m) o f).1.clientUsernames ws = true) ∧
    (mapHas st.clientUsernames ws = true →
      (handleMessage st ws (Frame.parsed m) o f).2.filter isSystemBroadcast = [] ∧
      (handleMessage st ws (Frame.parsed m) o f).2.filter isCountBroadcast = []) := by
  rcases hv with ⟨ht, hu, hx⟩ | ⟨ht, hu, hx⟩
  · have hct : (m.type == some (JVal.jstr "chat-message")) = true := by simp [ht]
    have hval : (!(truthyOpt m.username) || !(truthyOpt m.text)) = false := by simp [hu, hx]
    constructor
    · intro hnew
      have hcond : (!(mapHas st.clientUsernames ws) && truthyOpt m.username) = true := by
        simp [hnew, hu]
      simp only [handleMessage, hct, hval, hcond, if_true, Bool.false_eq_true, if_false,
        bindAndAnnounce, broadcast, broadcastOnlineCountAct]
      exact ⟨_, _, _, _, _, rfl, rfl, rfl, mapHas_mapSet_self _ _ _⟩
    · intro hbound
      have hcond : (!(mapHas st.clientUsernames ws) && truthyOpt m.username) = false := by
        simp [hbound]
      simp only [handleMessage, hct, hval, hcond, if_true, Bool.false_eq_true, if_false,
        broadcast]
      exact ⟨rfl, rfl⟩
  · have hcf : (m.type == some (JVal.jstr "chat-message")) = false := by simp [ht]
    have htt : (m.type == some (JVal.jstr "typing")) = true := by simp [ht]
    have hval : (!(truthyOpt m.username) || m.isTyping == none) = false := by
      cases hi : m.isTyping with
      | none => exact absurd hi hx
      | some v => simp [hu, hi]
    constructor
    · intro hnew
      have hcond : (!(mapHas st.clientUsernames ws) && truthyOpt m.username) = true := by
        simp [hnew, hu]
      simp only [handleMessage, hcf, htt, hval, hcond, if_true, Bool.false_eq_true, if_false,
        bindAndAnnounce, broadcast, broadcastOnlineCountAct, broadcastExcept]
      exact ⟨_, _, _, _, _, rfl, rfl, rfl, mapHas_mapSet_self _ _ _⟩
    · intro hbound
      have hcond : (!(mapHas st.clientUsernames ws) && truthyOpt m.username) = false := by
        simp [hbound]
      simp only [handleMessage, hcf, htt, hval, hcond, if_true, Bool.false_eq_true, if_false,
        broadcastExcept]
      exact ⟨rfl, rfl⟩

/-- C2 witness: a fresh session sending the valid chat message from "Alice"
is announced once; evaluated on the concrete one-client state. -/
theorem first_valid_message_announces_once_witness :
    mapHas (ServerState.mk [0] []).clientUsernames 0 = false ∧
    (∃ jt n s1 s2 rest,
      (handleMessage (ServerState.mk [0] []) 0 (Frame.parsed chatAlice) allOpen noFail).2 =
        Action.broadcastAll (Envelope.system jt) s1 ::
          Action.broadcastAll (Envelope.onlineCountMsg n) s2 :: rest ∧
      rest.filter isSystemBroadcast = [] ∧
      rest.filter isCountBroadcast = [] ∧
      mapHas (handleMessage (ServerState.mk [0] []) 0
        (Frame.parsed chatAlice) allOpen noFail).1.clientUsernames 0 = true) := by
  refine ⟨by decide, ?_⟩
  exact (first_valid_message_announces_once (ServerState.mk [0] []) 0 chatAlice allOpen noFail
    (Or.inl ⟨rfl, by decide, by decide⟩)).1 (by decide)

/-- C3: a valid chat-message is relayed to exactly the live sessions whose
transport is open, the originator included when open; a valid typing message
is relayed to exactly the live open sessions other than the originator
(reference equality); non-open sessions are silently skipped in both
cases. -/
theorem delivery_targets_chat_and_typing (st : ServerState) (ws : Nat) (m : Msg)
    (o f : Nat → Bool) :
    (validChat m → ∃ pre sends,
      (handleMessage st ws (Frame.parsed m) o f).2 =
        pre ++ [Action.broadcastAll (Envelope.relayMsg m) sends] ∧
      (∀ c : Nat, c ∈ sends.map SendAttempt.target ↔
        (c ∈ st.connectedClients ∧ o c = true)) ∧
      (ws ∈ st.connectedClients → o ws = true → ws ∈ sends.map SendAttempt.target)) ∧
    (validTyping m → ∃ pre sends,
      (handleMessage st ws (Frame.parsed m) o f).2 =
        pre ++ [Action.broadcastExceptOne (Envelope.relayMsg m) ws sends] ∧
      (∀ c : Nat, c ∈ sends.map SendAttempt.target ↔
        (c ∈ st.connectedClients ∧ c ≠ ws ∧ o c = true)) ∧
      ws ∉ sends.map SendAttempt.target) := by
  have hallmem : ∀ c : Nat,
      c ∈ (sendsToAll st.connectedClients o f (Envelope.relayMsg m)).map SendAttempt.target ↔
        (c ∈ st.connectedClients ∧ o c = true) := by
    intro c
    rw [sendsToAll_targets, List.mem_filter]
  have hexmem : ∀ c : Nat,
      c ∈ (sendsToExcept st.connectedClients o f (Envelope.relayMsg m) ws).map
          SendAttempt.target ↔
        (c ∈ st.connectedClients ∧ c ≠ ws ∧ o c = true) := by
    intro c
    rw [sendsToExcept_targets, List.mem_filter]
    simp [Bool.and_eq_true, and_assoc]
  constructor
  · rintro ⟨ht, hu, hx⟩
    have hct : (m.type == some (JVal.jstr "chat-message")) = true := by simp [ht]
    have hval : (!(truthyOpt m.username) || !(truthyOpt m.text)) = false := by simp [hu, hx]
    cases hB : mapHas st.clientUsernames ws with
    | true =>
      have hcond : (!(mapHas st.clientUsernames ws) && truthyOpt m.username) = false := by
        simp [hB]
      simp only [handleMessage, hct, hval, hcond, if_true, Bool.false_eq_true, if_false,
        broadcast]
      exact ⟨[], _, rfl, hallmem, fun h1 h2 => (hallmem ws).2 ⟨h1, h2⟩⟩
    | false =>
      have hcond : (!(mapHas st.clientUsernames ws) && truthyOpt m.username) = true := by
        simp [hB, hu]
      simp only [handleMessage, hct, hval, hcond, if_true, Bool.false_eq_true, if_false,
        bindAndAnnounce, broadcast, broadcastOnlineCountAct]
      exact ⟨_, _, rfl, hallmem, fun h1 h2 => (hallmem ws).2 ⟨h1, h2⟩⟩
  · rintro ⟨ht, hu, hx⟩
    have hcf : (m.type == some (JVal.jstr "chat-message")) = false := by simp [ht]
    have htt : (m.type == some (JVal.jstr "typing")) = true := by simp [ht]
    have hval : (!(truthyOpt m.username) || m.isTyping == none) = false := by
      cases hi : m.isTyping with
      | none => exact absurd hi hx
      | some v => simp [hu, hi]
    cases hB : mapHas st.clientUsernames ws with
    | true =>
      have hcond : (!(mapHas st.clientUsernames ws) && truthyOpt m.username) = false := by
        simp [hB]
      simp only [handleMessage, hcf, htt, hval, hcond, if_true, Bool.false_eq_true, if_false,
        broadcastExcept]
      exact ⟨[], _, rfl, hexmem, fun h => ((hexmem ws).1 h).2.1 rfl⟩
    | false =>
      have hcond : (!(mapHas st.clientUsernames ws) && truthyOpt m.username) = true := by
        simp [hB, hu]
      simp only [handleMessage, hcf, htt, hval, hcond, if_true, Bool.false_eq_true, if_false,
        bindAndAnnounce, broadcast, broadcastOnlineCountAct, broadcastExcept]
      exact ⟨_, _, rfl, hexmem, fun h => ((hexmem ws).1 h).2.1 rfl⟩

/-- C3 witness: on a two-client state (both open) with client 0 bound,
client 0's chat message reaches both clients and client 0's typing message
reaches only client 1. -/
theorem delivery_targets_chat_and_typing_witness :
    (∃ pre sends,
      (handleMessage (ServerState.mk [0, 1] [(0, JVal.jstr "Alice")]) 0
          (Frame.parsed chatAlice) allOpen noFail).2 =
        pre ++ [Action.broadcastAll (Envelope.relayMsg chatAlice) sends] ∧
      (∀ c : Nat, c ∈ sends.map SendAttempt.target ↔
        (c ∈ [0, 1] ∧ allOpen c = true)) ∧
      (0 ∈ [0, 1] → allOpen 0 = true → 0 ∈ sends.map SendAttempt.target)) ∧
    (∃ pre sends,
      (handleMessage (ServerState.mk [0, 1] [(0, JVal.jstr "Alice")]) 0
          (Frame.parsed typingAlice) allOpen noFail).2 =
        pre ++ [Action.broadcastExceptOne (Envelope.relayMsg typingAlice) 0 sends] ∧
      (∀ c : Nat, c ∈ sends.map SendAttempt.target ↔
        (c ∈ [0, 1] ∧ c ≠ 0 ∧ allOpen c = true)) ∧
      0 ∉ sends.map SendAttempt.target) :=
  ⟨(delivery_targets_chat_and_typing (ServerState.mk [0, 1] [(0, JVal.jstr "Alice")]) 0
      chatAlice allOpen noFail).1 ⟨rfl, by decide, by decide⟩,
    (delivery_targets_chat_and_typing (ServerState.mk [0, 1] [(0, JVal.jstr "Alice")]) 0
      typingAlice allOpen noFail).2 ⟨rfl, by decide, by decide⟩⟩

/-- C4: on session close or transport error, the session is removed from
the Registry; a bound session produces exactly one leave system broadcast
followed by exactly one online-count broadcast carrying the freshly
recomputed count; an unbound session produces zero broadcasts. -/
theorem close_and_error_notifications (st : ServerState) (ws : Nat) (o f : Nat → Bool)
    (h : Reachable st) :
    ws ∉ (handleClose st ws o f).1.connectedClients ∧
    mapHas (handleClose st ws o f).1.clientUsernames ws = false ∧
    ws ∉ (handleError st ws o f).1.connectedClients ∧
    mapHas (handleError st ws o f).1.clientUsernames ws = false ∧
    (mapHas st.clientUsernames ws = true →
      ∃ u s1 s2 s3 s4, st.clientUsernames.lookup ws = some u ∧
        (handleClose st ws o f).2 =
          [Action.broadcastAll (Envelope.system (u.jsToString ++ " left the chat")) s1,
            Action.broadcastAll
              (Envelope.onlineCountMsg (getOnlineCount (handleClose st ws o f).1)) s2] ∧
        (handleError st ws o f).2 =
          [Action.broadcastAll (Envelope.system (u.jsToString ++ " left the chat")) s3,
            Action.broadcastAll
              (Envelope.onlineCountMsg (getOnlineCount (handleError st ws o f).1)) s4]) ∧
    (mapHas st.clientUsernames ws = false →
      (handleClose st ws o f).2 = [] ∧ (handleError st ws o f).2 = []) := by
  refine ⟨?_, ?_, ?_, ?_, ?_, ?_⟩
  · rw [handleClose_state]
    simp [List.mem_filter]
  · rw [handleClose_state]
    exact mapHas_mapDelete_self _ _
  · rw [handleError_state]
    simp [List.mem_filter]
  · rw [handleError_state]
    exact mapHas_mapDelete_self _ _
  · intro hb
    obtain ⟨u, hu⟩ := Option.isSome_iff_exists.1 hb
    have hmemu : (ws, u) ∈ st.clientUsernames := lookup_eq_some_mem hu
    have htr : u.truthy = true := ((reachable_inv h).2.2 _ hmemu).2
    have hc1 : getOnlineCount (handleClose st ws o f).1 =
        (mapDelete st.clientUsernames ws).length := by
      rw [handleClose_state]
      rfl
    have hc2 : getOnlineCount (handleError st ws o f).1 =
        (mapDelete st.clientUsernames ws).length := by
      rw [handleError_state]
      rfl
    rw [hc1, hc2]
    refine ⟨u,
      sendsToAll (st.connectedClients.filter (fun c => c != ws)) o f
        (Envelope.system (u.jsToString ++ " left the chat")),
      sendsToAll (st.connectedClients.filter (fun c => c != ws)) o f
        (Envelope.onlineCountMsg (mapDelete st.clientUsernames ws).length),
      sendsToAll (st.connectedClients.filter (fun c => c != ws)) o f
        (Envelope.system (u.jsToString ++ " left the chat")),
      sendsToAll (st.connectedClients.filter (fun c => c != ws)) o f
        (Envelope.onlineCountMsg (mapDelete st.clientUsernames ws).length),
      hu, ?_, ?_⟩
    · simp only [handleClose, hu, htr, if_true, broadcast, broadcastOnlineCountAct,
        getOnlineCount]
    · simp only [handleError, hu, htr, if_true, broadcast, broadcastOnlineCountAct,
        getOnlineCount]
  · intro hb
    have hn : st.clientUsernames.lookup ws = none := by
      unfold mapHas at hb
      exact Option.not_isSome_iff_eq_none.1 (by simp [hb])
    constructor
    · simp only [handleClose, hn]
    · simp only [handleError, hn]

/-- C4 witness: closing the bound session of the concrete one-client state
emits the leave message and the fresh count; evaluated via the theorem. -/
theorem close_and_error_notifications_witness :
    mapHas stAlice.clientUsernames 0 = true ∧
    ∃ u s1 s2 s3 s4, stAlice.clientUsernames.lookup 0 = some u ∧
      (handleClose stAlice 0 allOpen noFail).2 =
        [Action.broadcastAll (Envelope.system (u.jsToString ++ " left the chat")) s1,
          Action.broadcastAll
            (Envelope.onlineCountMsg (getOnlineCount (handleClose stAlice 0 allOpen noFail).1)) s2] ∧
      (handleError stAlice 0 allOpen noFail).2 =
        [Action.broadcastAll (Envelope.system (u.jsToString ++ " left the chat")) s3,
          Action.broadcastAll
            (Envelope.onlineCountMsg (getOnlineCount (handleError stAlice 0 allOpen noFail).1)) s4] :=
  ⟨by decide,
    (close_and_error_notifications stAlice 0 allOpen noFail stAlice_reachable).2.2.2.2.1
      (by decide)⟩

/-- C5: an inbound frame that fails to parse yields exactly one error
envelope with text "Failed to process message" sent back to the originating
session only, with no broadcast and no change to the Registry. -/
theorem malformed_frame_error_reply (st : ServerState) (ws : Nat) (o f : Nat → Bool) :
    handleMessage st ws Frame.malformed o f =
      (st, [Action.unicast
        (SendAttempt.mk ws (Envelope.errorMsg "Failed to process message") (!f ws))]) := rfl

/-- C6: a chat-message whose username or text is empty or missing is dropped
silently — no response to the sender, no broadcast, and no change to the
Registry. -/
theorem invalid_chat_dropped_silently (st : ServerState) (ws : Nat) (m : Msg)
    (o f : Nat → Bool) (ht : m.type = some (JVal.jstr "chat-message"))
    (hbad : truthyOpt m.username = false ∨ truthyOpt m.text = false) :
    handleMessage st ws (Frame.parsed m) o f = (st, []) := by
  have hct : (m.type == some (JVal.jstr "chat-message")) = true := by simp [ht]
  have hval : (!(truthyOpt m.username) || !(truthyOpt m.text)) = true := by
    rcases hbad with hb | hb <;> simp [hb]
  simp only [handleMessage, hct, hval, if_true]

/-- C6 witness: a chat message with an empty username is dropped on the
concrete one-client state. -/
theorem invalid_chat_dropped_silently_witness :
    handleMessage (ServerState.mk [0] []) 0 (Frame.parsed chatEmptyUser) allOpen noFail =
      (ServerState.mk [0] [], []) :=
  invalid_chat_dropped_silently (ServerState.mk [0] []) 0 chatEmptyUser allOpen noFail rfl
    (Or.inl (by decide))

/-- C7 counterexample: the claim says a later valid chat-message overwrites
the session's bound identity. In the reachable state where session 0 is
bound to "Alice", a valid chat-message carrying username "Bob" leaves the
binding at "Alice": no overwrite happens. -/
theorem rebind_counterexample :
    Reachable stAlice ∧
    mapHas stAlice.clientUsernames 0 = true ∧
    chatBob.username = some (JVal.jstr "Bob") ∧
    validChat chatBob ∧
    (handleMessage stAlice 0 (Frame.parsed chatBob) allOpen noFail).1.clientUsernames.lookup 0 =
      some (JVal.jstr "Alice") ∧
    (JVal.jstr "Alice" : JVal) ≠ JVal.jstr "Bob" :=
  ⟨stAlice_reachable, by decide, rfl, ⟨rfl, by decide, by decide⟩, by decide, by decide⟩

/-- C7 amended: once a session is bound, no subsequent inbound frame — in
particular no structurally valid chat-message or typing message — changes
the server state at all: the bound identity is never overwritten, the
username in later messages is used only inside the relayed envelope, and no
join or count broadcast occurs. -/
theorem bound_session_state_never_changes (st : ServerState) (ws : Nat) (frame : Frame)
    (o f : Nat → Bool) (hb : mapHas st.clientUsernames ws = true) :
    (handleMessage st ws frame o f).1 = st := by
  rcases handleMessage_state st ws frame o f with heq | ⟨hnew, _, _, _⟩
  · exact heq
  · rw [hnew] at hb
    cases hb

/-- C7 amended witness: the bound session of the concrete state keeps its
state across the "Bob" chat message. -/
theorem bound_session_state_never_changes_witness :
    (handleMessage stAlice 0 (Frame.parsed chatBob) allOpen noFail).1 = stAlice :=
  bound_session_state_never_changes stAlice 0 (Frame.parsed chatBob) allOpen noFail (by decide)

/-- C8 counterexample: the claim says a typing message whose `isTyping` is
present but not a boolean is dropped silently. The dispatcher only checks
`isTyping === undefined`, so a typing message with the string value "yes"
is forwarded to the other session rather than dropped. -/
theorem nonbool_isTyping_forwarded :
    typingNonBool.isTyping = some (JVal.jstr "yes") ∧
    typingNonBool.isTyping ≠ some (JVal.jbool true) ∧
    typingNonBool.isTyping ≠ some (JVal.jbool false) ∧
    (handleMessage (ServerState.mk [0, 1] [(0, JVal.jstr "Alice")]) 0
        (Frame.parsed typingNonBool) allOpen noFail).2 =
      [Action.broadcastExceptOne (Envelope.relayMsg typingNonBool) 0
        [SendAttempt.mk 1 (Envelope.relayMsg typingNonBool) true]] :=
  ⟨rfl, by decide, by decide, by decide⟩

/-- C8 amended: a typing message is accepted (and forwarded to the other
sessions) iff it carries a truthy username and a present `isTyping` field of
any JSON type — booleanness is not checked; a message missing the username
or the `isTyping` field is dropped silently with no response, no broadcast,
and no Registry mutation. -/
theorem typing_validation_presence_only (st : ServerState) (ws : Nat) (m : Msg)
    (o f : Nat → Bool) (ht : m.type = some (JVal.jstr "typing")) :
    ((truthyOpt m.username = false ∨ m.isTyping = none) →
      handleMessage st ws (Frame.parsed m) o f = (st, [])) ∧
    (truthyOpt m.username = true → m.isTyping ≠ none →
      ∃ pre sends, (handleMessage st ws (Frame.parsed m) o f).2 =
        pre ++ [Action.broadcastExceptOne (Envelope.relayMsg m) ws sends]) := by
  have hcf : (m.type == some (JVal.jstr "chat-message")) = false := by simp [ht]
  have htt : (m.type == some (JVal.jstr "typing")) = true := by simp [ht]
  constructor
  · intro hbad
    have hval : (!(truthyOpt m.username) || m.isTyping == none) = true := by
      rcases hbad with hb | hb <;> simp [hb]
    simp only [handleMessage, hcf, htt, hval, if_true, Bool.false_eq_true, if_false]
  · intro hu hx
    have hval : (!(truthyOpt m.username) || m.isTyping == none) = false := by
      cases hi : m.isTyping with
      | none => exact absurd hi hx
      | some v => simp [hu, hi]
    cases hB : mapHas st.clientUsernames ws with
    | true =>
      have hcond : (!(mapHas st.clientUsernames ws) && truthyOpt m.username) = false := by
        simp [hB]
      simp only [handleMessage, hcf, htt, hval, hcond, if_true, Bool.false_eq_true, if_false,
        broadcastExcept]
      exact ⟨[], _, rfl⟩
    | false =>
      have hcond : (!(mapHas st.clientUsernames ws) && truthyOpt m.username) = true := by
        simp [hB, hu]
      simp only [handleMessage, hcf, htt, hval, hcond, if_true, Bool.false_eq_true, if_false,
        bindAndAnnounce, broadcast, broadcastOnlineCountAct, broadcastExcept]
      exact ⟨_, _, rfl⟩

/-- C8 amended witness: a typing message with `isTyping` missing is dropped,
while one with the non-boolean string "yes" is forwarded. -/
theorem typing_validation_presence_only_witness :
    handleMessage stAlice 0 (Frame.parsed typingNoFlag) allOpen noFail = (stAlice, []) ∧
    (∃ pre sends,
      (handleMessage stAlice 0 (Frame.parsed typingNonBool) allOpen noFail).2 =
        pre ++ [Action.broadcastExceptOne (Envelope.relayMsg typingNonBool) 0 sends]) :=
  ⟨(typing_validation_presence_only stAlice 0 typingNoFlag allOpen noFail rfl).1
      (Or.inr rfl),
    (typing_validation_presence_only stAlice 0 typingNonBool allOpen noFail rfl).2
      (by decide) (by decide)⟩

/-- C9: during any fan-out, a per-session send failure is caught: the set of
attempted recipients is every connected open session regardless of which
sends fail (no abort part-way), and the successor Registry state computed by
every handler is independent of which sends fail (a failing session is not
removed by the fan-out). -/
theorem fanout_failure_isolated (clients : List Nat) (o f g : Nat → Bool) (e : Envelope)
    (ex ws : Nat) (st : ServerState) (frame : Frame) :
    (sendsToAll clients o f e).map SendAttempt.target = clients.filter (fun c => o c) ∧
    (sendsToAll clients o f e).map SendAttempt.target =
      (sendsToAll clients o g e).map SendAttempt.target ∧
    (sendsToExcept clients o f e ex).map SendAttempt.target =
      clients.filter (fun c => c != ex && o c) ∧
    (sendsToExcept clients o f e ex).map SendAttempt.target =
      (sendsToExcept clients o g e ex).map SendAttempt.target ∧
    (handleMessage st ws frame o f).1 = (handleMessage st ws frame o g).1 ∧
    (handleClose st ws o f).1 = (handleClose st ws o g).1 ∧
    (handleError st ws o f).1 = (handleError st ws o g).1 := by
  refine ⟨sendsToAll_targets clients o f e, ?_, sendsToExcept_targets clients o f e ex, ?_,
    handleMessage_fst_indep st ws frame o f g, ?_, ?_⟩
  · rw [sendsToAll_targets, sendsToAll_targets]
  · rw [sendsToExcept_targets, sendsToExcept_targets]
  · rw [handleClose_state, handleClose_state]
  · rw [handleError_state, handleError_state]

/-- C10 counterexample: the claim says every identity bound in a reachable
state has length at least 2 after trimming. The state in which session 0 is
bound to the one-character username "a" is reachable (the server never
checks length; the length-2 rule lives only in the client), and
`trimmedLen "a" = 1 < 2`. -/
theorem short_identity_reachable :
    Reachable stShort ∧
    stShort.clientUsernames.lookup 0 = some (JVal.jstr "a") ∧
    trimmedLen "a" < 2 :=
  ⟨stShort_reachable, rfl, by decide⟩

/-- C10 amended: in every reachable state, every identity bound in the
Registry is a truthy JSON value — in particular, a bound string identity is
non-empty. The minimum-length-2-after-trimming rule is not enforced by the
server. -/
theorem bound_identities_truthy (st : ServerState) (h : Reachable st) :
    ∀ p ∈ st.clientUsernames,
      p.2.truthy = true ∧ ∀ s : String, p.2 = JVal.jstr s → s ≠ "" := by
  intro p hp
  have htr : p.2.truthy = true := ((reachable_inv h).2.2 p hp).2
  refine ⟨htr, ?_⟩
  intro s hs
  rw [hs] at htr
  simpa [JVal.truthy] using htr

/-- C10 amended witness: the binding of session 0 in the concrete reachable
state is the truthy, non-empty string "Alice". -/
theorem bound_identities_truthy_witness :
    (JVal.jstr "Alice").truthy = true ∧
    ∀ s : String, JVal.jstr "Alice" = JVal.jstr s → s ≠ "" :=
  bound_identities_truthy stAlice stAlice_reachable (0, JVal.jstr "Alice") (by decide)

end RealtimeChat
